import Mathlib

/-!
Shallow embedding of the ranking core of `fastapi/main.py` ("The Shopkeeper"
semantic product search server): the personalization-boost scoring, the
match-reason extraction, the retrieve-then-rerank search pipeline, vector
normalization, and the startup index build.

Modelling conventions:
* Python floats are modelled as exact rationals `ℚ` (for scores and the boost
  arithmetic) or reals `ℝ` (for the normalization math, where a square root is
  required).  The claims settled here do not depend on binary rounding of
  IEEE floats.
* The open `user_preferences: dict` field is populated by pydantic from the
  request JSON, so its values are arbitrary JSON values, modelled by `JVal`.
* Python `str.lower` is modelled by `pyLower` (per-character ASCII case
  folding, the mapping of `String.toLower`).
* Exceptions escaping an expression are modelled with `Except`.
-/

namespace Shopkeeper

/-- A JSON value, as pydantic delivers the entries of the open
`user_preferences: dict` request field. -/
inductive JVal where
  | null
  | bool (b : Bool)
  | num (q : ℚ)
  | str (s : String)
  | arr (xs : List JVal)
  | obj (kvs : List (String × JVal))

/-- Kinds of Python runtime errors the preference extraction can raise. -/
inductive PyErr where
  | typeError
  | attributeError
deriving DecidableEq, Repr

/-- Python `needle in haystack` on strings: substring test (the empty string
is a substring of everything, as in Python). -/
def pySubstr (needle haystack : String) : Bool :=
  decide (needle.toList <:+: haystack.toList)

/-- Python `str.lower`: per-character ASCII lowering.  Same mapping as
`String.toLower`, implemented structurally over the character list so that
theorems can be evaluated on concrete inputs. -/
def pyLower (s : String) : String := ⟨s.data.map Char.toLower⟩

/-- An item record of `products_data.json`, with the fields the server reads
(spec section 3; the optional fields are read with `dict.get` defaults in the
source). -/
structure Product where
  id : ℤ
  name : String
  description : String
  price : ℚ
  category : String
  subcategory : Option String := none
  gender : Option String := none
  colors : List String := []
  sizes : List String := []
  tags : List String := []
  occasions : List String := []
  seasons : List String := []
  materials : List String := []
  rating : ℚ := 0
  reviews : ℕ := 0
  stock : ℕ := 0
deriving DecidableEq, Repr

/-- `build_text` (main.py lines 59-73): the searchable text of a product,
space-joined fields and tag collections. -/
def build_text (p : Product) : String :=
  String.intercalate " "
    [p.name, p.description, p.category, p.subcategory.getD "", p.gender.getD "",
     String.intercalate " " p.tags, String.intercalate " " p.occasions,
     String.intercalate " " p.seasons, String.intercalate " " p.materials,
     String.intercalate " " p.colors]

/-- Python `query_lower.split()`: split on whitespace runs, no empty words.
(`List.splitOnP` splits the character list at whitespace exactly as
`String.split` does, structurally.) -/
def queryWords (query_lower : String) : List String :=
  ((query_lower.data.splitOnP Char.isWhitespace).map (fun cs => String.mk cs)).filter
    (fun w => w ≠ "")

/-- The tag/occasion inclusion test of `compute_match_reasons` (main.py
lines 82-89): the lower-cased string is itself a query word, or some query
word is a substring of its lower-cased form. -/
def tagMatches (qws : List String) (t : String) : Bool :=
  qws.contains (pyLower t) || qws.any (fun w => pySubstr w (pyLower t))

/-- The season inclusion test (main.py lines 92-94): exact query-word match
of the lower-cased season only. -/
def seasonMatches (qws : List String) (s : String) : Bool :=
  qws.contains (pyLower s)

/-- The reasons accumulated by `compute_match_reasons` (main.py lines 78-100)
before deduplication and capping, in source order: matching tags, matching
occasions, matching seasons, then category and subcategory on exact
query-word match. -/
def rawReasons (p : Product) (query_lower : String) : List String :=
  let qws := queryWords query_lower
  p.tags.filter (tagMatches qws)
    ++ p.occasions.filter (tagMatches qws)
    ++ p.seasons.filter (seasonMatches qws)
    ++ (if qws.contains (pyLower p.category) then [p.category] else [])
    ++ (if qws.contains (pyLower (p.subcategory.getD "")) then [p.subcategory.getD ""] else [])

/-- Deduplication keeping the first occurrence of each string.  The source's
`list(set(reasons))` deduplicates with an unspecified iteration order (the
spec flags this nondeterminism in section 9); the model fixes a deterministic
order.  Only order-insensitive properties are proved about the result. -/
def dedupKeepFirst (seen : List String) : List String → List String
  | [] => []
  | x :: xs =>
    if seen.contains x then dedupKeepFirst seen xs
    else x :: dedupKeepFirst (x :: seen) xs

/-- `compute_match_reasons` (main.py lines 76-102): collect matching
attribute strings, deduplicate, cap at 5. -/
def compute_match_reasons (p : Product) (query_lower : String) : List String :=
  (dedupKeepFirst [] (rawReasons p query_lower)).take 5

/-! ### Preference extraction (main.py lines 208-210) -/

/-- Python `d.get(key, default)` on the preferences dict. -/
def pyGet (d : List (String × JVal)) (key : String) (dflt : JVal) : JVal :=
  match d.lookup key with
  | some v => v
  | none => dflt

/-- Python `for c in v`: iteration over a JSON value.  Lists yield their
elements, strings yield their one-character substrings, dicts yield their
keys; numbers, booleans and `None` are not iterable and raise `TypeError`. -/
def pyIter : JVal → Except PyErr (List JVal)
  | .arr xs => .ok xs
  | .str s => .ok (s.toList.map (fun c => .str (String.singleton c)))
  | .obj kvs => .ok (kvs.map (fun kv => .str kv.1))
  | _ => .error .typeError

/-- Python `c.lower()` on a dynamic value: only strings have `lower`;
anything else raises `AttributeError`. -/
def pyLowerVal : JVal → Except PyErr String
  | .str s => .ok (pyLower s)
  | _ => .error .attributeError

/-- `[c.lower() for c in xs]`: lower each element left to right, raising at
the first non-string element. -/
def lowerAll : List JVal → Except PyErr (List String)
  | [] => .ok []
  | v :: vs =>
    match pyLowerVal v, lowerAll vs with
    | .error e, _ => .error e
    | .ok _, .error e => .error e
    | .ok s, .ok rest => .ok (s :: rest)

/-- Line 209: `fav_colors = [c.lower() for c in user_prefs.get("favorite_colors", [])]`. -/
def extractFavColors (prefs : List (String × JVal)) : Except PyErr (List String) :=
  match pyIter (pyGet prefs "favorite_colors" (.arr [])) with
  | .error e => .error e
  | .ok xs => lowerAll xs

/-- Lines 209-210: extract `fav_colors` and `budget` from the request's
`user_preferences`.  `budget` defaults to the empty string and can never
raise; `fav_colors` raises for non-iterable or non-string-element values. -/
def extractPrefs (prefs : List (String × JVal)) : Except PyErr (List String × JVal) :=
  match extractFavColors prefs with
  | .error e => .error e
  | .ok fav => .ok (fav, pyGet prefs "budget" (.str ""))

/-! ### Personalization boost (main.py lines 219-233) -/

/-- Lines 221-224: add `0.05` when the product has some color whose
lower-cased form contains one of the (already lower-cased) favorite colors
as a substring; no favorite colors means no adjustment. -/
def colorAdjust (fav_colors : List String) (p : Product) : ℚ :=
  if fav_colors ≠ [] then
    let product_colors := p.colors.map pyLower
    if fav_colors.any (fun fc => product_colors.any (fun pc => pySubstr fc pc)) then 0.05
    else 0
  else 0

/-- Python `v == "s"` for a dynamic `v`: true only for an equal string,
false (never an error) for every other value. -/
def pyEqStr (v : JVal) (s : String) : Bool :=
  match v with
  | .str t => t == s
  | _ => false

/-- Lines 227-233: the `if/elif` budget ladder.  At most one branch fires;
an unrecognized or non-string budget value matches no branch. -/
def budgetAdjust (budget : JVal) (price : ℚ) : ℚ :=
  if pyEqStr budget "low" ∧ price < 80 then 0.05
  else if pyEqStr budget "medium" ∧ 50 ≤ price ∧ price ≤ 200 then 0.03
  else if pyEqStr budget "high" ∧ 150 < price then 0.02
  else 0

/-! ### Result assembly and re-sort (main.py lines 212-259) -/

/-- Python `round(x, 4)`, modelled as exact rational rounding to 4 decimal
digits.  (CPython rounds the nearest binary double with banker's ties; no
claim settled here depends on the tie rule or on binary representation.) -/
def round4 (x : ℚ) : ℚ := (round (x * 10000) : ℤ) / 10000

/-- The `ProductResult` pydantic response model (main.py lines 148-165). -/
structure ProductResult where
  id : ℤ
  name : String
  description : String
  price : ℚ
  category : String
  subcategory : Option String
  gender : Option String
  colors : List String
  sizes : List String
  tags : List String
  occasions : List String
  seasons : List String
  rating : ℚ
  reviews : ℕ
  stock : ℕ
  similarity_score : ℚ
  match_reasons : List String
deriving DecidableEq, Repr

/-- One iteration of the result loop (lines 216-256) for a retrieved product:
apply the color and budget adjustments to the base score, round to 4 digits,
compute match reasons from the lower-cased query, copy the catalog fields. -/
def mkResult (p : Product) (score : ℚ) (fav_colors : List String) (budget : JVal)
    (query : String) : ProductResult :=
  { id := p.id, name := p.name, description := p.description, price := p.price,
    category := p.category, subcategory := p.subcategory, gender := p.gender,
    colors := p.colors, sizes := p.sizes, tags := p.tags, occasions := p.occasions,
    seasons := p.seasons, rating := p.rating, reviews := p.reviews, stock := p.stock,
    similarity_score := round4 (score + colorAdjust fav_colors p + budgetAdjust budget p.price),
    match_reasons := compute_match_reasons p (pyLower query) }

/-- The result loop (lines 212-214 and 238-256): FAISS hands back `(index,
score)` pairs with `int64` indices; indices that are negative (padding) or
out of range are skipped (`continue`), the rest are scored and assembled. -/
def buildResults (products : List Product) (pairs : List (ℤ × ℚ))
    (fav_colors : List String) (budget : JVal) (query : String) : List ProductResult :=
  pairs.filterMap (fun is =>
    if is.1 < 0 then none
    else (products.get? is.1.toNat).map (fun p => mkResult p is.2 fav_colors budget query))

/-- The re-sort relation of line 259: higher boosted score first. -/
def scoreGE (a b : ProductResult) : Prop := b.similarity_score ≤ a.similarity_score

instance : DecidableRel scoreGE := fun a b =>
  inferInstanceAs (Decidable (b.similarity_score ≤ a.similarity_score))

instance : IsTotal ProductResult scoreGE := ⟨fun a b => le_total b.similarity_score a.similarity_score⟩

instance : IsTrans ProductResult scoreGE := ⟨fun _ _ _ h1 h2 => le_trans h2 h1⟩

/-- Line 259: `results.sort(key=lambda r: r.similarity_score, reverse=True)`.
Python's `list.sort` is a stable sort; it is modelled by the stable
`insertionSort`, which produces the same list as every stable sort for this
total transitive relation. -/
def sortResults (rs : List ProductResult) : List ProductResult :=
  rs.insertionSort scoreGE

/-! ### Similarity index (FAISS `IndexFlatIP`) -/

/-- Inner product of two equal-dimension vectors, over exact rationals. -/
def dot (a b : List ℚ) : ℚ := (List.zipWith (· * ·) a b).sum

/-- The retrieval order on `(position, score)` pairs: higher score first,
ties broken by lower catalog position first. -/
def pairLE (a b : ℕ × ℚ) : Prop := b.2 < a.2 ∨ (a.2 = b.2 ∧ a.1 ≤ b.1)

instance : DecidableRel pairLE := fun a b =>
  inferInstanceAs (Decidable (b.2 < a.2 ∨ (a.2 = b.2 ∧ a.1 ≤ b.1)))

instance : IsTotal (ℕ × ℚ) pairLE :=
  ⟨fun a b => by
    rcases lt_trichotomy a.2 b.2 with h | h | h
    · exact Or.inr (Or.inl h)
    · rcases le_total a.1 b.1 with hp | hp
      · exact Or.inl (Or.inr ⟨h, hp⟩)
      · exact Or.inr (Or.inr ⟨h.symm, hp⟩)
    · exact Or.inl (Or.inl h)⟩

instance : IsTrans (ℕ × ℚ) pairLE :=
  ⟨fun a b c hab hbc => by
    rcases hab with hab | ⟨e1, p1⟩ <;> rcases hbc with hbc | ⟨e2, p2⟩
    · exact Or.inl (hbc.trans hab)
    · exact Or.inl (e2 ▸ hab)
    · exact Or.inl (e1 ▸ hbc)
    · exact Or.inr ⟨e1.trans e2, p1.trans p2⟩⟩

/-- Modelled from the spec: the `faiss` library implementing
`IndexFlatIP.search` is not part of this repository's sources.  Per spec
section 4.2, the search scores every stored vector by inner product with the
query, orders by score descending with ties broken by ascending catalog
position, and returns at most `k` `(position, score)` pairs. -/
def indexSearch (db : List (List ℚ)) (q : List ℚ) (k : ℕ) : List (ℕ × ℚ) :=
  let scored := db.enum.map (fun iv => (iv.1, dot q iv.2))
  (scored.insertionSort pairLE).take k

/-- Modelled from the spec and the FAISS output contract visible at main.py
lines 212-214: `index.search` returns fixed-size `k`-row output, padding
missing entries with index `-1` (and a minimal float score) when `k` exceeds
the number of stored vectors; the caller skips those entries. -/
def faissRawSearch (db : List (List ℚ)) (q : List ℚ) (k : ℕ) : List (ℤ × ℚ) :=
  let found := (indexSearch db q k).map (fun is => ((is.1 : ℤ), is.2))
  found ++ List.replicate (k - found.length) (-1, -(3.4e38 : ℚ))

/-! ### The `/search` endpoint (main.py lines 186-268) -/

/-- The validated `SearchRequest` pydantic model (lines 142-145). -/
structure SearchRequest where
  query : String
  user_preferences : List (String × JVal) := []
  top_k : ℕ := 5

/-- The `SearchResponse` pydantic model (lines 168-172).  The wall-clock
`search_time_ms` field is not modelled. -/
structure SearchResponse where
  products : List ProductResult
  query : String
  total_results : ℕ
deriving DecidableEq, Repr

/-- Observable outcome of one `/search` call: the 503 "Index not ready"
response, an uncaught Python exception (HTTP 500), or a success payload. -/
inductive Outcome where
  | notReady
  | error (e : PyErr)
  | ok (r : SearchResponse)
deriving DecidableEq, Repr

/-- Whether an outcome is a success payload. -/
def outcomeOk : Outcome → Bool
  | .ok _ => true
  | _ => false

/-- The result list of a success outcome (empty otherwise). -/
def outcomeProducts : Outcome → List ProductResult
  | .ok r => r.products
  | _ => []

/-- The module-level globals of main.py lines 52-56.  The embedding model is
carried as the (deterministic, black-box per spec section 6) text-encoder
function; for the query path it models `model.embed` composed with the
normalization of lines 196-201, whose exact arithmetic is treated separately
over `ℝ` below. -/
structure ServerState where
  products : List Product
  product_texts : List String
  index : Option (List (List ℚ))
  model : Option (String → List ℚ)

/-- The `/search` handler (lines 186-268) in state-passing form: check
readiness, encode the query, run the FAISS search, extract preferences,
assemble boosted results, re-sort, and answer.  No statement of the source
assigns any global, so the handler returns the state it was given. -/
def searchHandler (st : ServerState) (req : SearchRequest) : ServerState × Outcome :=
  match st.index, st.model with
  | some db, some enc =>
    match extractPrefs req.user_preferences with
    | .error e => (st, .error e)
    | .ok (fav_colors, budget) =>
      let q := enc req.query
      let pairs := faissRawSearch db q req.top_k
      let results := sortResults (buildResults st.products pairs fav_colors budget req.query)
      (st, .ok { products := results, query := req.query, total_results := results.length })
  | _, _ => (st, .notReady)

/-! ### Vector normalization (main.py lines 129-131 and 199-201) and the
startup index build (lines 106-138) -/

/-- Sum of squared components: the square of the Euclidean norm
`np.linalg.norm` computes. -/
def sumSq (v : List ℝ) : ℝ := (v.map fun x => x * x).sum

/-- Lines 129-131 / 199-201: divide each component by the Euclidean norm,
after replacing a zero norm by 1 (`norms[norms == 0] = 1`), so the all-zero
vector passes through unchanged instead of producing NaN. -/
noncomputable def normalize (v : List ℝ) : List ℝ :=
  let n := Real.sqrt (sumSq v)
  v.map (fun x => x / (if n = 0 then 1 else n))

/-- The startup build failure kind.  With zero catalog items the embeddings
array has shape `(0,)`, and `np.linalg.norm(embeddings, axis=1)` at line 129
raises (axis 1 does not exist), so the build fails at build time exactly on
the empty catalog.  Spec section 7 names error kinds, not type names; this
empty-catalog build failure is its `EmptyCatalog` kind. -/
inductive BuildError where
  | emptyCatalog
deriving DecidableEq, Repr

/-- The built similarity index: one normalized vector per catalog item, in
catalog order. -/
structure BuiltIndex where
  vectors : List (List ℝ)

/-- `startup_load_products` (lines 106-138), given the loaded catalog and
the batch text encoder: build the searchable texts, embed them, normalize
row-wise, and index.  An empty catalog fails at the normalization step (see
`BuildError.emptyCatalog`) before any index is created. -/
noncomputable def buildIndex (enc : String → List ℝ) (products : List Product) :
    Except BuildError BuiltIndex :=
  let texts := products.map build_text
  let embeddings := texts.map enc
  match embeddings with
  | [] => .error .emptyCatalog
  | es => .ok ⟨es.map normalize⟩

/-- The index global after startup: it is assigned only when the build ran
to completion, so a failed build leaves it `none` and every `/search` call
answers 503 "Index not ready" forever (lines 190-191). -/
noncomputable def startupIndex (enc : String → List ℝ) (products : List Product) :
    Option BuiltIndex :=
  (buildIndex enc products).toOption

/-! ### Concrete fixtures used to evaluate the theorems on explicit inputs -/

/-- A product with six distinct tags, all matching the six-word query
`"t1 t2 t3 t4 t5 t6"`. -/
def exampleProduct : Product :=
  { id := 1, name := "n", description := "d", price := 10, category := "x",
    tags := ["t1", "t2", "t3", "t4", "t5", "t6"] }

/-- A one-item catalog entry. -/
def prodA : Product :=
  { id := 7, name := "Red Dress", description := "d", price := 60,
    category := "dresses", colors := ["red"], tags := ["dress"] }

/-- Server state after a startup that indexed the one-item catalog
`[prodA]`, with a constant unit-vector encoder. -/
def stA : ServerState :=
  { products := [prodA], product_texts := [build_text prodA],
    index := some [[1]], model := some (fun _ => [1]) }

/-- A plain request against `stA`. -/
def reqA : SearchRequest := { query := "dress", user_preferences := [], top_k := 1 }

/-- The five-item catalog of concrete scenario C. -/
def catalogFive : List Product :=
  [{ id := 1, name := "a", description := "d", price := 10, category := "c" },
   { id := 2, name := "b", description := "d", price := 20, category := "c" },
   { id := 3, name := "c", description := "d", price := 30, category := "c" },
   { id := 4, name := "d", description := "d", price := 40, category := "c" },
   { id := 5, name := "e", description := "d", price := 50, category := "c" }]

/-- Server state with the five-item catalog indexed by one-dimensional
vectors with distinct scores. -/
def stFive : ServerState :=
  { products := catalogFive, product_texts := catalogFive.map build_text,
    index := some [[1], [2], [3], [4], [5]], model := some (fun _ => [1]) }

/-- Scenario C's request: `top_k = 20` against the five-item catalog. -/
def reqTwenty : SearchRequest := { query := "q", user_preferences := [], top_k := 20 }

/-! ## Helper lemmas -/

lemma pyEqStr_eq_false {b : JVal} {s : String} (h : b ≠ .str s) : pyEqStr b s = false := by
  cases b <;> simp only [pyEqStr]
  exact beq_eq_false_iff_ne.mpr fun hs => h (by rw [hs])

lemma budgetAdjust_eq_zero {b : JVal} (hl : b ≠ .str "low") (hm : b ≠ .str "medium")
    (hh : b ≠ .str "high") (price : ℚ) : budgetAdjust b price = 0 := by
  simp [budgetAdjust, pyEqStr_eq_false hl, pyEqStr_eq_false hm, pyEqStr_eq_false hh]

lemma colorAdjust_mem (fc : List String) (p : Product) :
    colorAdjust fc p ∈ ({0, 0.05} : Set ℚ) := by
  simp only [colorAdjust]
  split_ifs with h1 h2 <;> norm_num [Set.mem_insert_iff, Set.mem_singleton_iff]

lemma budgetAdjust_mem (b : JVal) (price : ℚ) :
    budgetAdjust b price ∈ ({0, 0.02, 0.03, 0.05} : Set ℚ) := by
  unfold budgetAdjust
  split_ifs <;> norm_num [Set.mem_insert_iff, Set.mem_singleton_iff]

/-! ## Claims -/

/-- C3: for every item and every preference object restricted to the
recognized keys — here quantified over the extracted favorite-color list and
an arbitrary budget value — the total boost adjustment lies in
`{0, 0.02, 0.03, 0.05, 0.07, 0.08, 0.10}`; the color rule contributes `0.05`
at most once and at most one budget rule fires. -/
theorem boost_bounded (fc : List String) (b : JVal) (p : Product) :
    colorAdjust fc p ∈ ({0, 0.05} : Set ℚ) ∧
    budgetAdjust b p.price ∈ ({0, 0.02, 0.03, 0.05} : Set ℚ) ∧
    colorAdjust fc p + budgetAdjust b p.price ∈
      ({0, 0.02, 0.03, 0.05, 0.07, 0.08, 0.10} : Set ℚ) := by
  have h1 := colorAdjust_mem fc p
  have h2 := budgetAdjust_mem b p.price
  refine ⟨h1, h2, ?_⟩
  simp only [Set.mem_insert_iff, Set.mem_singleton_iff] at h1 h2 ⊢
  rcases h1 with h1 | h1 <;> rcases h2 with h2 | h2 | h2 | h2 <;> rw [h1, h2] <;> norm_num

/-- C10: a budget value that is absent (modelled by the extraction default,
the empty string) or anything other than exactly the strings `"low"`,
`"medium"`, `"high"` produces a zero budget adjustment, raises no error (the
Python `==` comparisons of lines 228-232 are total), and the item is still
scored and returned exactly as it would be with no budget preference. -/
theorem budget_unrecognized_zero (b : JVal) (p : Product)
    (hl : b ≠ .str "low") (hm : b ≠ .str "medium") (hh : b ≠ .str "high") :
    budgetAdjust b p.price = 0 ∧
    ∀ (ps : List Product) (pairs : List (ℤ × ℚ)) (fc : List String) (q : String),
      buildResults ps pairs fc b q = buildResults ps pairs fc (.str "") q := by
  have hz : ∀ price : ℚ, budgetAdjust b price = 0 := budgetAdjust_eq_zero hl hm hh
  have hz' : ∀ price : ℚ, budgetAdjust (.str "") price = 0 := by
    intro price
    refine budgetAdjust_eq_zero ?_ ?_ ?_ price <;> exact fun h => by simp at h
  have hmk : ∀ (p' : Product) (s : ℚ) (fc : List String) (q : String),
      mkResult p' s fc b q = mkResult p' s fc (.str "") q := by
    intro p' s fc q
    unfold mkResult
    rw [hz p'.price, hz' p'.price]
  refine ⟨hz p.price, ?_⟩
  intro ps pairs fc q
  unfold buildResults
  congr 1
  funext is
  split
  · rfl
  · simp only [hmk]

/-- Witness for C10 at the concrete budget value `5` (a JSON number). -/
theorem budget_unrecognized_zero_witness :
    budgetAdjust (JVal.num 5) prodA.price = 0 ∧
    buildResults [prodA] [((0 : ℤ), (1 : ℚ))] [] (JVal.num 5) "q" =
      buildResults [prodA] [((0 : ℤ), (1 : ℚ))] [] (JVal.str "") "q" :=
  ⟨(budget_unrecognized_zero (JVal.num 5) prodA nofun nofun nofun).1,
   (budget_unrecognized_zero (JVal.num 5) prodA nofun nofun nofun).2
     [prodA] [((0 : ℤ), (1 : ℚ))] [] "q"⟩

/-- C2 counterexample: the preference extraction of line 209 is part of the
boost computation, and it does raise for a wrong-shaped `favorite_colors`: a
JSON number is not iterable, so `[c.lower() for c in 42]` raises `TypeError`
instead of being treated as "no preference". -/
theorem prefs_wrong_shape_raises :
    extractPrefs [("favorite_colors", JVal.num 42)] = .error .typeError ∧
    extractPrefs [("favorite_colors", JVal.arr [JVal.num 1])] = .error .attributeError := by
  constructor <;> rfl

lemma lowerAll_strs (strs : List String) :
    lowerAll (strs.map JVal.str) = .ok (strs.map pyLower) := by
  induction strs with
  | nil => rfl
  | cons s strs ih => simp [lowerAll, ih, pyLowerVal]

/-- C2 as amended: the boost computation never raises for absent preference
fields or for malformed budget values — an absent `favorite_colors` yields no
color adjustment, an absent `budget` yields no budget adjustment, and any
list-of-strings `favorite_colors` is accepted — but a `favorite_colors` value
that is not iterable, or whose elements are not strings, raises an error
rather than being treated as "no preference". -/
theorem prefs_absent_treated_as_none (prefs : List (String × JVal)) (p : Product) :
    (prefs.lookup "favorite_colors" = none →
      extractPrefs prefs = .ok ([], pyGet prefs "budget" (.str "")) ∧
      colorAdjust [] p = 0) ∧
    (prefs.lookup "budget" = none →
      budgetAdjust (pyGet prefs "budget" (.str "")) p.price = 0) ∧
    (∀ strs : List String, prefs.lookup "favorite_colors" = some (.arr (strs.map .str)) →
      extractPrefs prefs = .ok (strs.map pyLower, pyGet prefs "budget" (.str ""))) := by
  refine ⟨?_, ?_, ?_⟩
  · intro h
    constructor
    · simp [extractPrefs, extractFavColors, pyGet, h, pyIter, lowerAll]
    · simp [colorAdjust]
  · intro h
    have : pyGet prefs "budget" (.str "") = .str "" := by simp [pyGet, h]
    rw [this]
    refine budgetAdjust_eq_zero ?_ ?_ ?_ p.price <;> exact fun hx => by simp at hx
  · intro strs h
    simp [extractPrefs, extractFavColors, pyGet, h, pyIter, lowerAll_strs]

/-- Witness for C2's amended theorem at a concrete preference object with
only a (numeric, malformed) budget and no `favorite_colors`. -/
theorem prefs_absent_treated_as_none_witness :
    extractPrefs [("budget", JVal.num 3)] = .ok ([], JVal.num 3) ∧
    colorAdjust [] prodA = 0 :=
  (prefs_absent_treated_as_none [("budget", JVal.num 3)] prodA).1 rfl

/-- C8: building the similarity index from zero catalog items fails at build
time — the embeddings array is empty and the row normalization of line 129
has no axis to reduce over, the spec's `EmptyCatalog` failure kind (section 7
names error kinds, not type names) — and the index global is never assigned,
so the server never becomes ready (every `/search` answers 503, lines
190-191). -/
theorem build_empty_catalog_fails (enc : String → List ℝ) :
    buildIndex enc [] = .error .emptyCatalog ∧ startupIndex enc [] = none := by
  exact ⟨rfl, rfl⟩

lemma sumSq_nonneg (v : List ℝ) : 0 ≤ sumSq v := by
  refine List.sum_nonneg ?_
  intro x hx
  rcases List.mem_map.mp hx with ⟨y, _, rfl⟩
  exact mul_self_nonneg y

lemma sumSq_map_div (v : List ℝ) (c : ℝ) :
    sumSq (v.map (fun x => x / c)) = sumSq v / (c * c) := by
  induction v with
  | nil => simp [sumSq]
  | cons x v ih =>
    simp only [sumSq, List.map_cons, List.map_map, List.sum_cons] at ih ⊢
    rw [div_mul_div_comm, ih, add_div]

lemma normalize_of_norm_zero {v : List ℝ} (h : Real.sqrt (sumSq v) = 0) :
    normalize v = v := by
  simp [normalize, h]

lemma normalize_of_norm_one {v : List ℝ} (h : Real.sqrt (sumSq v) = 1) :
    normalize v = v := by
  simp [normalize, h]

/-- C7: normalization is idempotent — `normalize (normalize v) = normalize v`
for every vector (exactly, over the reals modelling the float arithmetic) —
and the all-zero vector comes back unchanged (`norms[norms == 0] = 1` guards
the division), not as NaN. -/
theorem normalize_idempotent_and_zero :
    (∀ v : List ℝ, normalize (normalize v) = normalize v) ∧
    (∀ d : ℕ, normalize (List.replicate d (0 : ℝ)) = List.replicate d 0) := by
  have hzero : ∀ d : ℕ, normalize (List.replicate d (0 : ℝ)) = List.replicate d 0 := by
    intro d
    have hs : sumSq (List.replicate d (0 : ℝ)) = 0 := by
      simp [sumSq, List.map_replicate]
    exact normalize_of_norm_zero (by rw [hs, Real.sqrt_zero])
  refine ⟨?_, hzero⟩
  intro v
  by_cases h : Real.sqrt (sumSq v) = 0
  · rw [normalize_of_norm_zero h, normalize_of_norm_zero h]
  · have hv : normalize v = v.map (fun x => x / Real.sqrt (sumSq v)) := by
      simp [normalize, h]
    have hone : Real.sqrt (sumSq (normalize v)) = 1 := by
      rw [hv, sumSq_map_div, Real.sqrt_div (sumSq_nonneg v),
        Real.sqrt_mul_self (Real.sqrt_nonneg _), div_self h]
    rw [normalize_of_norm_one hone]

lemma mem_dedupKeepFirst {x : String} :
    ∀ {l seen : List String}, x ∈ dedupKeepFirst seen l ↔ (x ∈ l ∧ x ∉ seen) := by
  intro l
  induction l with
  | nil => intro seen; simp [dedupKeepFirst]
  | cons a l ih =>
    intro seen
    simp only [dedupKeepFirst]
    split_ifs with h
    · have ha : a ∈ seen := by simpa using h
      rw [ih]
      constructor
      · rintro ⟨hx, hs⟩; exact ⟨List.mem_cons_of_mem _ hx, hs⟩
      · rintro ⟨hx, hs⟩
        rcases List.mem_cons.mp hx with rfl | hx
        · exact absurd ha hs
        · exact ⟨hx, hs⟩
    · have ha : a ∉ seen := by simpa using h
      simp only [List.mem_cons, ih]
      constructor
      · rintro (rfl | ⟨hx, hs⟩)
        · exact ⟨Or.inl rfl, ha⟩
        · exact ⟨Or.inr hx, fun hx' => hs (Or.inr hx')⟩
      · rintro ⟨rfl | hx, hs⟩
        · exact Or.inl rfl
        · by_cases e : x = a
          · exact Or.inl e
          · exact Or.inr ⟨hx, fun h' => h'.elim e hs⟩

lemma nodup_dedupKeepFirst : ∀ (l seen : List String), (dedupKeepFirst seen l).Nodup := by
  intro l
  induction l with
  | nil => intro seen; simp [dedupKeepFirst]
  | cons a l ih =>
    intro seen
    simp only [dedupKeepFirst]
    split_ifs with h
    · exact ih seen
    · refine List.Nodup.cons ?_ (ih (a :: seen))
      intro hmem
      exact (mem_dedupKeepFirst.mp hmem).2 (List.mem_cons_self a seen)

/-- C4 counterexample: with six distinct tags all matching the query, only
five reasons are returned, so the claim's "a tag is included iff its
lower-cased form is a query word or ..." fails — all six tags satisfy the
inclusion condition yet they cannot all be in the 5-capped result. -/
theorem match_reason_cap_violates_iff :
    exampleProduct.tags.all (tagMatches (queryWords "t1 t2 t3 t4 t5 t6")) = true ∧
    exampleProduct.tags.Nodup ∧
    (compute_match_reasons exampleProduct "t1 t2 t3 t4 t5 t6").length = 5 ∧
    ¬ ("t1" ∈ compute_match_reasons exampleProduct "t1 t2 t3 t4 t5 t6" ∧
       "t2" ∈ compute_match_reasons exampleProduct "t1 t2 t3 t4 t5 t6" ∧
       "t3" ∈ compute_match_reasons exampleProduct "t1 t2 t3 t4 t5 t6" ∧
       "t4" ∈ compute_match_reasons exampleProduct "t1 t2 t3 t4 t5 t6" ∧
       "t5" ∈ compute_match_reasons exampleProduct "t1 t2 t3 t4 t5 t6" ∧
       "t6" ∈ compute_match_reasons exampleProduct "t1 t2 t3 t4 t5 t6") := by
  refine ⟨by decide, by decide, by decide, by decide⟩

/-- C4 as amended: the match explainer returns at most 5 deduplicated
reasons, each a verbatim string drawn from the item's tags, occasions,
seasons, category or subcategory and each satisfying its rule's inclusion
condition (tags/occasions: lower-cased form is a query word or contains a
query word as substring; seasons: exact query-word match; category and
subcategory: exact query-word match); conversely every string satisfying its
condition is returned whenever the distinct matching strings number at most
5 — with more than 5, only 5 of them are returned, so inclusion is not an
"iff" in general. -/
theorem match_reasons_cap_and_sound (p : Product) (q : String) :
    (compute_match_reasons p q).length ≤ 5 ∧
    (compute_match_reasons p q).Nodup ∧
    (∀ r ∈ compute_match_reasons p q,
      ((r ∈ p.tags ∨ r ∈ p.occasions) ∧ tagMatches (queryWords q) r = true) ∨
      (r ∈ p.seasons ∧ seasonMatches (queryWords q) r = true) ∨
      (r = p.category ∧ (queryWords q).contains (pyLower p.category) = true) ∨
      (r = p.subcategory.getD "" ∧
        (queryWords q).contains (pyLower (p.subcategory.getD "")) = true)) ∧
    ((dedupKeepFirst [] (rawReasons p q)).length ≤ 5 →
      ∀ r ∈ rawReasons p q, r ∈ compute_match_reasons p q) := by
  refine ⟨?_, ?_, ?_, ?_⟩
  · calc (compute_match_reasons p q).length ≤ 5 ⊓ _ :=
          le_of_eq (List.length_take 5 _)
      _ ≤ 5 := min_le_left _ _
  · exact (List.take_sublist 5 _).nodup (nodup_dedupKeepFirst _ [])
  · intro r hr
    have hraw : r ∈ rawReasons p q :=
      (mem_dedupKeepFirst.mp (List.mem_of_mem_take hr)).1
    simp only [rawReasons, List.mem_append] at hraw
    rcases hraw with ((((h | h) | h) | h) | h)
    · exact Or.inl ⟨Or.inl (List.mem_filter.mp h).1, (List.mem_filter.mp h).2⟩
    · exact Or.inl ⟨Or.inr (List.mem_filter.mp h).1, (List.mem_filter.mp h).2⟩
    · exact Or.inr (Or.inl ⟨(List.mem_filter.mp h).1, (List.mem_filter.mp h).2⟩)
    · by_cases hc : (queryWords q).contains (pyLower p.category) = true
      · rw [if_pos hc] at h
        exact Or.inr (Or.inr (Or.inl ⟨List.mem_singleton.mp h, hc⟩))
      · rw [if_neg hc] at h
        exact absurd h (List.not_mem_nil r)
    · by_cases hc : (queryWords q).contains (pyLower (p.subcategory.getD "")) = true
      · rw [if_pos hc] at h
        exact Or.inr (Or.inr (Or.inr ⟨List.mem_singleton.mp h, hc⟩))
      · rw [if_neg hc] at h
        exact absurd h (List.not_mem_nil r)
  · intro hlen r hr
    unfold compute_match_reasons
    rw [List.take_of_length_le hlen]
    exact mem_dedupKeepFirst.mpr ⟨hr, List.not_mem_nil r⟩

/-- Witness for C4's amended theorem on the six-tag fixture. -/
theorem match_reasons_cap_and_sound_witness :
    (compute_match_reasons exampleProduct "t1 t2 t3 t4 t5 t6").length ≤ 5 ∧
    (compute_match_reasons exampleProduct "t1 t2 t3 t4 t5 t6").Nodup :=
  ⟨(match_reasons_cap_and_sound exampleProduct "t1 t2 t3 t4 t5 t6").1,
   (match_reasons_cap_and_sound exampleProduct "t1 t2 t3 t4 t5 t6").2.1⟩

lemma sorted_indexSearch (db : List (List ℚ)) (q : List ℚ) (k : ℕ) :
    List.Pairwise pairLE (indexSearch db q k) :=
  List.Pairwise.sublist (List.take_sublist k _)
    (List.sorted_insertionSort pairLE _)

lemma nodup_fst_indexSearch (db : List (List ℚ)) (q : List ℚ) (k : ℕ) :
    List.Pairwise (fun a b : ℕ × ℚ => a.1 ≠ b.1) (indexSearch db q k) := by
  have hfst : (db.enum.map (fun iv : ℕ × List ℚ => (iv.1, dot q iv.2))).map Prod.fst
      = List.range db.length := by
    rw [List.map_map]
    exact List.enum_map_fst db
  have hnd : ((db.enum.map (fun iv : ℕ × List ℚ => (iv.1, dot q iv.2))).map Prod.fst).Nodup := by
    rw [hfst]; exact List.nodup_range db.length
  have hperm :
      ((db.enum.map (fun iv : ℕ × List ℚ => (iv.1, dot q iv.2))).insertionSort
        pairLE).map Prod.fst |>.Nodup := by
    exact (List.Perm.nodup_iff
      ((List.perm_insertionSort pairLE _).map Prod.fst)).mpr hnd
  have htake : ((indexSearch db q k).map Prod.fst).Nodup :=
    ((List.take_sublist k _).map Prod.fst).nodup hperm
  exact List.pairwise_map.mp htake

lemma mem_indexSearch {db : List (List ℚ)} {q : List ℚ} {k : ℕ} {pr : ℕ × ℚ}
    (h : pr ∈ indexSearch db q k) :
    pr.1 < db.length ∧ ∃ v, db.get? pr.1 = some v ∧ pr.2 = dot q v := by
  have h1 : pr ∈ (db.enum.map (fun iv : ℕ × List ℚ => (iv.1, dot q iv.2))).insertionSort
      pairLE := List.mem_of_mem_take h
  have h2 : pr ∈ db.enum.map (fun iv : ℕ × List ℚ => (iv.1, dot q iv.2)) :=
    (List.perm_insertionSort pairLE _).subset h1
  rcases List.mem_map.mp h2 with ⟨iv, hiv, rfl⟩
  have := List.mem_enum hiv
  rcases this with ⟨hlt, hget⟩
  refine ⟨hlt, iv.2, ?_, rfl⟩
  rw [List.get?_eq_get hlt, hget]
  rfl

/-- C5: for every query vector and every `k` within the catalog size, the
similarity search returns at most `k` `(position, score)` pairs — each
position a valid catalog position scored by inner product with the query —
sorted by score descending with ties broken deterministically by ascending
catalog position.  (Modelled from the spec: the FAISS library itself is not
part of the repository's sources.) -/
theorem index_search_sorted_deterministic (db : List (List ℚ)) (q : List ℚ) (k : ℕ)
    (_hk : k ≤ db.length) :
    (indexSearch db q k).length ≤ k ∧
    (∀ pr ∈ indexSearch db q k,
      pr.1 < db.length ∧ ∃ v, db.get? pr.1 = some v ∧ pr.2 = dot q v) ∧
    List.Pairwise (fun a b : ℕ × ℚ => b.2 < a.2 ∨ (a.2 = b.2 ∧ a.1 < b.1))
      (indexSearch db q k) := by
  refine ⟨?_, fun pr h => mem_indexSearch h, ?_⟩
  · calc (indexSearch db q k).length ≤ k ⊓ _ := le_of_eq (List.length_take k _)
      _ ≤ k := min_le_left _ _
  · have := (sorted_indexSearch db q k).and (nodup_fst_indexSearch db q k)
    refine this.imp ?_
    rintro a b ⟨hle, hne⟩
    rcases hle with hlt | ⟨heq, hpos⟩
    · exact Or.inl hlt
    · exact Or.inr ⟨heq, lt_of_le_of_ne hpos hne⟩

/-- Witness for C5 on a three-vector catalog with `k = 2`. -/
theorem index_search_sorted_deterministic_witness :
    (indexSearch [[1], [2], [3]] [1] 2).length ≤ 2 ∧
    List.Pairwise (fun a b : ℕ × ℚ => b.2 < a.2 ∨ (a.2 = b.2 ∧ a.1 < b.1))
      (indexSearch [[1], [2], [3]] [1] 2) :=
  ⟨(index_search_sorted_deterministic [[1], [2], [3]] [1] 2 (by norm_num)).1,
   (index_search_sorted_deterministic [[1], [2], [3]] [1] 2 (by norm_num)).2.2⟩

lemma mem_buildResults {ps : List Product} {pairs : List (ℤ × ℚ)} {fc : List String}
    {b : JVal} {q : String} {r : ProductResult} :
    r ∈ buildResults ps pairs fc b q ↔
      ∃ is ∈ pairs, ¬ is.1 < 0 ∧
        ∃ p, ps.get? is.1.toNat = some p ∧ r = mkResult p is.2 fc b q := by
  unfold buildResults
  rw [List.mem_filterMap]
  constructor
  · rintro ⟨is, hmem, hf⟩
    by_cases hneg : is.1 < 0
    · rw [if_pos hneg] at hf
      exact absurd hf (by simp)
    · rw [if_neg hneg] at hf
      rcases hg : ps.get? is.1.toNat with _ | p
      · rw [hg] at hf; simp at hf
      · rw [hg] at hf
        simp only [Option.map_some'] at hf
        exact ⟨is, hmem, hneg, p, hg, (Option.some.injEq _ _ ▸ hf).symm⟩
  · rintro ⟨is, hmem, hneg, p, hg, rfl⟩
    exact ⟨is, hmem, by rw [if_neg hneg, hg]; rfl⟩

lemma mem_faissRaw_valid {db : List (List ℚ)} {q : List ℚ} {k : ℕ} {is : ℤ × ℚ}
    (h : is ∈ faissRawSearch db q k) (hneg : ¬ is.1 < 0) :
    ∃ js ∈ indexSearch db q k, is = ((js.1 : ℤ), js.2) := by
  unfold faissRawSearch at h
  rcases List.mem_append.mp h with h | h
  · rcases List.mem_map.mp h with ⟨js, hjs, rfl⟩
    exact ⟨js, hjs, rfl⟩
  · exfalso
    have := List.eq_of_mem_replicate h
    rw [this] at hneg
    exact hneg (by norm_num)

/-- C1: for every request the handler answers successfully, the emitted
result sequence is sorted by boosted score descending, and every emitted
result is the boosted, explained rendering of an item retrieved by the
initial top-k similarity search — an item outside the initial top-k can
never appear, whatever boost the request's preference object would
produce. -/
theorem search_resort_and_topk (st : ServerState) (req : SearchRequest)
    (db : List (List ℚ)) (enc : String → List ℚ) (resp : SearchResponse)
    (hdb : st.index = some db) (hmodel : st.model = some enc)
    (hok : (searchHandler st req).2 = .ok resp) :
    List.Sorted (fun r₁ r₂ : ProductResult => r₂.similarity_score ≤ r₁.similarity_score)
      resp.products ∧
    ∃ fc b, extractPrefs req.user_preferences = .ok (fc, b) ∧
      ∀ r ∈ resp.products, ∃ is ∈ indexSearch db (enc req.query) req.top_k,
        ∃ p, st.products.get? is.1 = some p ∧ r = mkResult p is.2 fc b req.query := by
  rcases st with ⟨ps, ts, idx, mdl⟩
  simp only at hdb hmodel
  subst hdb hmodel
  simp only [searchHandler] at hok
  rcases hpref : extractPrefs req.user_preferences with e | ⟨fc, b⟩
  · rw [hpref] at hok; simp at hok
  · rw [hpref] at hok
    simp only [Outcome.ok.injEq] at hok
    have hprod : resp.products =
        sortResults (buildResults ps (faissRawSearch db (enc req.query) req.top_k)
          fc b req.query) := by
      rw [← hok]
    constructor
    · rw [hprod]
      exact List.sorted_insertionSort scoreGE _
    · refine ⟨fc, b, rfl, ?_⟩
      intro r hr
      rw [hprod] at hr
      have hr' : r ∈ buildResults ps (faissRawSearch db (enc req.query) req.top_k)
          fc b req.query :=
        (List.perm_insertionSort scoreGE _).subset hr
      rcases mem_buildResults.mp hr' with ⟨is, hmem, hneg, p, hg, rfl⟩
      rcases mem_faissRaw_valid hmem hneg with ⟨js, hjs, rfl⟩
      refine ⟨js, hjs, p, ?_, rfl⟩
      simpa using hg

/-- Witness for C1 on a one-item catalog and a plain request. -/
theorem search_resort_and_topk_witness :
    List.Sorted (fun r₁ r₂ : ProductResult => r₂.similarity_score ≤ r₁.similarity_score)
      (SearchResponse.mk [mkResult prodA 1 [] (JVal.str "") "dress"] "dress" 1).products :=
  (search_resort_and_topk stA reqA [[1]] (fun _ => [1])
    (SearchResponse.mk [mkResult prodA 1 [] (JVal.str "") "dress"] "dress" 1)
    rfl rfl (by with_unfolding_all decide)).1

lemma map_id_buildResults (ps : List Product) (pairs : List (ℤ × ℚ)) (fc : List String)
    (b : JVal) (q : String) :
    (buildResults ps pairs fc b q).map (fun r => r.id) =
      pairs.filterMap (fun is => if is.1 < 0 then none
        else (ps.get? is.1.toNat).map (fun p => p.id)) := by
  unfold buildResults
  rw [List.map_filterMap]
  congr 1
  funext is
  split
  · rfl
  · rw [Option.map_map]
    rfl

lemma enumFrom_filterMap_get {α β γ : Type _} (f : β → γ) :
    ∀ (db : List α) (k : ℕ) (ps : List β), k + db.length = ps.length →
      (db.enumFrom k).filterMap (fun iv => (ps.get? iv.1).map f) = (ps.drop k).map f := by
  intro db
  induction db with
  | nil =>
    intro k ps h
    simp only [List.length_nil, Nat.add_zero] at h
    simp [List.enumFrom, List.drop_eq_nil_of_le (le_of_eq h.symm)]
  | cons a db ih =>
    intro k ps h
    have hk : k < ps.length := by
      simp only [List.length_cons] at h; omega
    rw [List.enumFrom_cons,
      List.filterMap_cons_some (by rw [List.get?_eq_get hk]; rfl),
      ih (k + 1) ps (by simp only [List.length_cons] at h; omega),
      List.drop_eq_getElem_cons hk, List.map_cons]
    rfl

/-- C6: when the requested `top_k` is at least the catalog size, the search
succeeds (no error is signalled) and returns exactly one result per catalog
item — all items, sorted by boosted score; e.g. `top_k = 20` against a 5-item
catalog returns exactly 5 results.  (The FAISS padding behaviour for
`k > ntotal` is modelled from the spec and the guard at main.py lines
213-214.) -/
theorem topk_exceeding_returns_all (st : ServerState) (req : SearchRequest)
    (db : List (List ℚ)) (enc : String → List ℚ) (fc : List String) (b : JVal)
    (hdb : st.index = some db) (hmodel : st.model = some enc)
    (hlen : db.length = st.products.length)
    (hpref : extractPrefs req.user_preferences = .ok (fc, b))
    (hk : st.products.length ≤ req.top_k) :
    outcomeOk (searchHandler st req).2 = true ∧
    (outcomeProducts (searchHandler st req).2).length = st.products.length ∧
    ((outcomeProducts (searchHandler st req).2).map (fun r => r.id)).Perm
      (st.products.map (fun p => p.id)) ∧
    List.Sorted (fun r₁ r₂ : ProductResult => r₂.similarity_score ≤ r₁.similarity_score)
      (outcomeProducts (searchHandler st req).2) := by
  rcases st with ⟨ps, ts, idx, mdl⟩
  simp only at hdb hmodel hlen hk
  subst hdb hmodel
  simp only [searchHandler, hpref, outcomeOk, outcomeProducts]
  refine ⟨trivial, ?_, ?_, List.sorted_insertionSort scoreGE _⟩ <;>
  · have hkdb : db.length ≤ req.top_k := hlen ▸ hk
    have hfull : (indexSearch db (enc req.query) req.top_k).Perm
        (db.enum.map (fun iv : ℕ × List ℚ => (iv.1, dot (enc req.query) iv.2))) := by
      unfold indexSearch
      rw [List.take_of_length_le
        (by rw [List.length_insertionSort, List.length_map, List.enum_length]; exact hkdb)]
      exact List.perm_insertionSort pairLE _
    have hids : ((sortResults (buildResults ps
        (faissRawSearch db (enc req.query) req.top_k) fc b req.query)).map
          (fun r => r.id)).Perm (ps.map (fun p => p.id)) := by
      refine ((List.perm_insertionSort scoreGE _).map (fun r => r.id)).trans ?_
      rw [map_id_buildResults]
      unfold faissRawSearch
      rw [List.filterMap_append]
      have hpad : (List.replicate
          (req.top_k - ((indexSearch db (enc req.query) req.top_k).map
            (fun is : ℕ × ℚ => ((is.1 : ℤ), is.2))).length)
          ((-1 : ℤ), -(3.4e38 : ℚ))).filterMap
            (fun is : ℤ × ℚ => if is.1 < 0 then none
              else (ps.get? is.1.toNat).map (fun p => p.id)) = [] := by
        refine List.filterMap_eq_nil_iff.mpr ?_
        intro a ha
        rw [List.eq_of_mem_replicate ha]
        norm_num
      rw [hpad, List.append_nil, List.filterMap_map]
      have hcomp : ((fun is : ℤ × ℚ => if is.1 < 0 then none
            else (ps.get? is.1.toNat).map (fun p => p.id)) ∘
          (fun js : ℕ × ℚ => ((js.1 : ℤ), js.2))) =
          fun js : ℕ × ℚ => (ps.get? js.1).map (fun p => p.id) := by
        funext js
        have : ¬ ((js.1 : ℤ) < 0) := not_lt.mpr (Int.natCast_nonneg js.1)
        simp [Function.comp, this, Int.toNat_natCast]
      rw [hcomp]
      refine (hfull.filterMap _).trans ?_
      rw [List.filterMap_map]
      have hcomp2 : ((fun js : ℕ × ℚ => (ps.get? js.1).map (fun p => p.id)) ∘
          (fun iv : ℕ × List ℚ => (iv.1, dot (enc req.query) iv.2))) =
          fun iv : ℕ × List ℚ => (ps.get? iv.1).map (fun p => p.id) := rfl
      rw [hcomp2]
      have henum : db.enum = db.enumFrom 0 := rfl
      rw [henum, enumFrom_filterMap_get (fun p => p.id) db 0 ps (by simpa using hlen),
        List.drop_zero]
    first
      | exact hids
      | · have h1 := hids.length_eq
          rw [List.length_map, List.length_map] at h1
          exact h1

/-- Witness for C6: scenario C's request, `top_k = 20` against the five-item
catalog, succeeds with exactly 5 results. -/
theorem topk_exceeding_returns_all_witness :
    outcomeOk (searchHandler stFive reqTwenty).2 = true ∧
    (outcomeProducts (searchHandler stFive reqTwenty).2).length = stFive.products.length :=
  ⟨(topk_exceeding_returns_all stFive reqTwenty [[1], [2], [3], [4], [5]] (fun _ => [1])
      [] (JVal.str "") rfl rfl rfl rfl (by norm_num [stFive, catalogFive, reqTwenty])).1,
   (topk_exceeding_returns_all stFive reqTwenty [[1], [2], [3], [4], [5]] (fun _ => [1])
      [] (JVal.str "") rfl rfl rfl rfl (by norm_num [stFive, catalogFive, reqTwenty])).2.1⟩

/-- C9: the `/search` handler mutates no server state: the catalog items,
the searchable texts, the similarity index (and the model) after a request
are exactly what they were before it; only the per-request result list is
fresh. -/
theorem search_preserves_state (st : ServerState) (req : SearchRequest) :
    (searchHandler st req).1 = st := by
  rcases st with ⟨ps, ts, idx, mdl⟩
  rcases idx with _ | db <;> rcases mdl with _ | enc <;> try rfl
  simp only [searchHandler]
  rcases h : extractPrefs req.user_preferences with e | ⟨fc, b⟩ <;> simp [h]

end Shopkeeper
